import Mathlib

/-!
Verification development for the claim-verification pipeline of `app.py`
(functions `fact_check_search`, `web_verify`, `_generate_with_model`,
`_extract_json_from_text`, `verify_claim`, and the `DOMAIN_SOURCES` table).

The Python code manipulates JSON-like dynamically typed values; we model
those with the inductive type `JVal` below, Python dicts as association
lists with unique keys in insertion order, and Python exceptions with
`Except Unit`.  External services (the fact-check HTTP endpoint, the news
HTTP endpoint, and the generative model) are modelled by an environment
`Env` carrying an arbitrary behaviour for each of them.
-/

set_option maxHeartbeats 1000000

namespace App

/-- A JSON-like Python value: `None`, booleans, numbers (Python ints and
floats are both modelled by `Rat`; `json.loads` only produces finite
decimals), strings, lists and string-keyed dicts. -/
inductive JVal where
  | null
  | bool (b : Bool)
  | num (q : Rat)
  | str (s : String)
  | arr (xs : List JVal)
  | obj (fields : List (String × JVal))
deriving Repr

/-- Python truthiness (`bool(v)`) for a `JVal`. -/
def JVal.truthy : JVal → Bool
  | .null => false
  | .bool b => b
  | .num q => decide (q ≠ 0)
  | .str s => !s.isEmpty
  | .arr xs => !xs.isEmpty
  | .obj fs => !fs.isEmpty

/-- Dict key lookup (`d.get(k)` / `k in d`), first match in the
association list. -/
def alookup {β : Type} : List (String × β) → String → Option β
  | [], _ => none
  | (k, v) :: rest, key => if k = key then some v else alookup rest key

/-- Dict assignment `d[k] = v`: replaces in place (Python dicts keep the
original insertion position of an existing key) or appends a new key at
the end. -/
def dset : List (String × JVal) → String → JVal → List (String × JVal)
  | [], key, v => [(key, v)]
  | (k, w) :: rest, key, v =>
      if k = key then (k, v) :: rest else (k, w) :: dset rest key v

/-- `d.setdefault(k, v)`: inserts `v` at the end only when `k` is absent. -/
def dsetdefault (fs : List (String × JVal)) (key : String) (v : JVal) :
    List (String × JVal) :=
  match alookup fs key with
  | some _ => fs
  | none => fs ++ [(key, v)]

/-- The opening curly bracket character (written via its code so that the
file contains no literal brace tokens inside code). -/
def openBrace : Char := '\x7b'

/-- The closing curly bracket character. -/
def closeBrace : Char := '\x7d'

/-- JSON whitespace accepted by `json.loads` between tokens. -/
def isJsonWs (c : Char) : Bool :=
  c == ' ' || c == '\t' || c == '\n' || c == '\r'

/-- Hexadecimal digit value, used for `\uXXXX` string escapes. -/
def hexDigit (c : Char) : Option Nat :=
  if '0' ≤ c && c ≤ '9' then some (c.toNat - 48)
  else if 'a' ≤ c && c ≤ 'f' then some (c.toNat - 87)
  else if 'A' ≤ c && c ≤ 'F' then some (c.toNat - 55)
  else none

/-- Body of a JSON string literal, after the opening quote: consumes up to
the closing quote, decoding the standard escapes; unescaped control
characters and bad escapes are errors, as in strict `json.loads`. -/
def parseStrBody : Nat → List Char → List Char → Option (String × List Char)
  | 0, _, _ => none
  | fuel + 1, cs, acc =>
    match cs with
    | [] => none
    | c :: rest =>
      if c = '"' then some (String.mk acc.reverse, rest)
      else if c = '\\' then
        match rest with
        | [] => none
        | e :: rest2 =>
          if e = '"' then parseStrBody fuel rest2 ('"' :: acc)
          else if e = '\\' then parseStrBody fuel rest2 ('\\' :: acc)
          else if e = '/' then parseStrBody fuel rest2 ('/' :: acc)
          else if e = 'b' then parseStrBody fuel rest2 ('\x08' :: acc)
          else if e = 'f' then parseStrBody fuel rest2 ('\x0c' :: acc)
          else if e = 'n' then parseStrBody fuel rest2 ('\n' :: acc)
          else if e = 'r' then parseStrBody fuel rest2 ('\r' :: acc)
          else if e = 't' then parseStrBody fuel rest2 ('\t' :: acc)
          else if e = 'u' then
            match rest2 with
            | h1 :: h2 :: h3 :: h4 :: rest3 =>
              match hexDigit h1, hexDigit h2, hexDigit h3, hexDigit h4 with
              | some a, some b, some c2, some d2 =>
                  parseStrBody fuel rest3
                    (Char.ofNat (((a * 16 + b) * 16 + c2) * 16 + d2) :: acc)
              | _, _, _, _ => none
            | _ => none
          else none
      else if c.toNat < 32 then none
      else parseStrBody fuel rest (c :: acc)

/-- Digits to a natural number. -/
def digitsToNat (ds : List Char) : Nat :=
  ds.foldl (fun n c => n * 10 + (c.toNat - 48)) 0

/-- Optional exponent part of a JSON number.  Returns
`(negativeExponent, exponentDigits, rest)`; `none` on a malformed
exponent (an `e` not followed by digits). -/
def parseExp (cs : List Char) : Option (Bool × List Char × List Char) :=
  match cs with
  | e :: t =>
    if e = 'e' || e = 'E' then
      let (sgn, t2) : Bool × List Char :=
        match t with
        | '+' :: u => (false, u)
        | '-' :: u => (true, u)
        | u => (false, u)
      let ds := t2.takeWhile Char.isDigit
      if ds = [] then none else some (sgn, ds, t2.dropWhile Char.isDigit)
    else some (false, [], cs)
  | [] => some (false, [], [])

/-- A JSON number (strict grammar: no leading zeros, `.` and exponent
need digits), as a rational together with the remaining input. -/
def parseNumAux (cs : List Char) : Option (Rat × List Char) :=
  let (neg, cs1) : Bool × List Char :=
    match cs with
    | '-' :: t => (true, t)
    | t => (false, t)
  let intDs := cs1.takeWhile Char.isDigit
  let cs2 := cs1.dropWhile Char.isDigit
  if intDs = [] then none
  else if intDs.length > 1 && intDs.head? = some '0' then none
  else
    let hasDot : Bool := match cs2 with | '.' :: _ => true | _ => false
    let fracDs := if hasDot then cs2.tail.takeWhile Char.isDigit else []
    let cs3 := if hasDot then cs2.tail.dropWhile Char.isDigit else cs2
    if hasDot && fracDs.isEmpty then none
    else
      match parseExp cs3 with
      | none => none
      | some (expNeg, expDs, cs4) =>
        let mant : Int := Int.ofNat (digitsToNat (intDs ++ fracDs))
        let mant : Int := if neg then -mant else mant
        let base : Rat := mkRat mant (10 ^ fracDs.length)
        let q : Rat :=
          if expDs = [] then base
          else if expNeg then base / ((10 : Rat) ^ digitsToNat expDs)
          else base * ((10 : Rat) ^ digitsToNat expDs)
        some (q, cs4)

/-- JSON number parser producing a `JVal`. -/
def parseNum (cs : List Char) : Option (JVal × List Char) :=
  (parseNumAux cs).map (fun p => (JVal.num p.1, p.2))

mutual

/-- One JSON value (the recursive core of `json.loads`), by fuel. -/
def parseVal : Nat → List Char → Option (JVal × List Char)
  | 0, _ => none
  | fuel + 1, cs =>
    match cs.dropWhile isJsonWs with
    | [] => none
    | c :: rest =>
      if c = openBrace then
        match rest.dropWhile isJsonWs with
        | d :: rest2 =>
          if d = closeBrace then some (JVal.obj [], rest2)
          else parseMembers fuel (d :: rest2) []
        | [] => none
      else if c = '[' then
        match rest.dropWhile isJsonWs with
        | d :: rest2 =>
          if d = ']' then some (JVal.arr [], rest2)
          else parseItems fuel (d :: rest2) []
        | [] => none
      else if c = '"' then
        match parseStrBody (rest.length + 1) rest [] with
        | some (s, r) => some (JVal.str s, r)
        | none => none
      else if c = 't' then
        if rest.take 3 = ['r', 'u', 'e'] then some (JVal.bool true, rest.drop 3)
        else none
      else if c = 'f' then
        if rest.take 4 = ['a', 'l', 's', 'e'] then some (JVal.bool false, rest.drop 4)
        else none
      else if c = 'n' then
        if rest.take 3 = ['u', 'l', 'l'] then some (JVal.null, rest.drop 3)
        else none
      else if c = '-' || c.isDigit then parseNum (c :: rest)
      else none

/-- Members of a non-empty JSON object; duplicate keys keep the last
value at the first key's position, as in Python dicts. -/
def parseMembers : Nat → List Char → List (String × JVal) →
    Option (JVal × List Char)
  | 0, _, _ => none
  | fuel + 1, cs, acc =>
    match cs.dropWhile isJsonWs with
    | '"' :: r1 =>
      match parseStrBody (r1.length + 1) r1 [] with
      | some (key, r2) =>
        match r2.dropWhile isJsonWs with
        | ':' :: r3 =>
          match parseVal fuel r3 with
          | some (v, r4) =>
            match r4.dropWhile isJsonWs with
            | ',' :: r5 => parseMembers fuel r5 (dset acc key v)
            | d :: r5 =>
              if d = closeBrace then some (JVal.obj (dset acc key v), r5)
              else none
            | [] => none
          | none => none
        | _ => none
      | none => none
    | _ => none

/-- Items of a non-empty JSON array. -/
def parseItems : Nat → List Char → List JVal → Option (JVal × List Char)
  | 0, _, _ => none
  | fuel + 1, cs, acc =>
    match parseVal fuel cs with
    | some (v, r1) =>
      match r1.dropWhile isJsonWs with
      | ',' :: r2 => parseItems fuel r2 (v :: acc)
      | ']' :: r2 => some (JVal.arr (v :: acc).reverse, r2)
      | _ => none
    | none => none

end

/-- `json.loads`: parse one value and require only whitespace after it.
(Python additionally accepts `NaN`/`Infinity` literals, which have no
rational counterpart; they are not modelled.) -/
def jsonLoads (s : String) : Option JVal :=
  match parseVal (2 * s.data.length + 8) s.data with
  | some (v, r) => if r.dropWhile isJsonWs = [] then some v else none
  | none => none

/-- First index satisfying a predicate. -/
def firstIdxAux (p : Char → Bool) : List Char → Nat → Option Nat
  | [], _ => none
  | c :: rest, i => if p c then some i else firstIdxAux p rest (i + 1)

/-- First index of a character satisfying `p`. -/
def firstIdx (p : Char → Bool) (cs : List Char) : Option Nat :=
  firstIdxAux p cs 0

/-- `re.search(r"\x7b.*\x7d", text, re.DOTALL)`: with a greedy `.*` the
leftmost match runs from the first opening brace to the last closing
brace of the whole text, provided the latter comes after the former. -/
def braceSnippet (s : String) : Option String :=
  let cs := s.data
  match firstIdx (fun c => c == openBrace) cs,
        firstIdx (fun c => c == closeBrace) cs.reverse with
  | some i, some k =>
    let j := cs.length - 1 - k
    if i < j then some (String.mk ((cs.drop i).take (j + 1 - i))) else none
  | _, _ => none

/-- `_extract_json_from_text` on a string input: empty text yields `None`;
otherwise try `json.loads` on the whole text (keeping the result only if
it is a dict), then on the greedy first-to-last-brace substring. -/
def extract_json_from_text (s : String) : Option (List (String × JVal)) :=
  if s.isEmpty then none
  else
    match jsonLoads s with
    | some (JVal.obj fs) => some fs
    | _ =>
      match braceSnippet s with
      | some snip =>
        match jsonLoads snip with
        | some (JVal.obj fs) => some fs
        | _ => none
      | none => none

/-- `str.title()` (ASCII approximation): an alphabetic character is
uppercased after a non-alphabetic character and lowercased after an
alphabetic one. -/
def titleAux : Bool → List Char → List Char
  | _, [] => []
  | prevAlpha, c :: rest =>
    if c.isAlpha then
      (if prevAlpha then c.toLower else c.toUpper) :: titleAux true rest
    else c :: titleAux false rest

/-- `domain.title()`. -/
def pyTitle (s : String) : String := String.mk (titleAux false s.data)

/-- The static trusted-source table `DOMAIN_SOURCES` of `app.py`. -/
def DOMAIN_SOURCES : List (String × List String) :=
  [("Health", ["WHO", "CDC", "NIH", "ICMR", "PubMed", "MedlinePlus"]),
   ("Politics", ["Election Commission", "UN", "Reuters", "BBC",
                 "Press Information Bureau India"]),
   ("Science", ["Nature", "Science", "arXiv", "IEEE", "PLOS"]),
   ("Finance", ["RBI", "SEBI", "World Bank", "IMF", "Economic Times"]),
   ("Climate", ["IPCC", "NASA Climate", "NOAA", "UNEP", "MoEFCC India"]),
   ("Technology", ["IEEE", "ACM", "Nature Tech", "ScienceDirect"]),
   ("General", ["Reuters", "BBC", "AP News", "The Hindu"])]

/-- Lines 160-162 of `app.py`: title-case a string domain (anything else
becomes `"General"`), then collapse unknown keys to `"General"`. -/
def normalizeDomainKey (d : JVal) : String :=
  let k : String :=
    match d with
    | JVal.str s => pyTitle s
    | _ => "General"
  if (alookup DOMAIN_SOURCES k).isSome then k else "General"

/-- `fact_check_search`: `\x7b\x7d` when the credential is missing, on any
transport error (`httpResult = none`), or on a non-200 status; otherwise
the parsed response body. -/
def fact_check_search (keyPresent : Bool) (httpResult : Option (Nat × JVal)) :
    JVal :=
  if !keyPresent then JVal.obj []
  else
    match httpResult with
    | none => JVal.obj []
    | some (code, body) => if code = 200 then body else JVal.obj []

/-- The list comprehension
`[a.get("url") for a in articles[:3] if a.get("url")]`: any non-dict
article raises inside the comprehension (`none` here); otherwise keep the
truthy `url` values in order. -/
def extractArticleUrls : List JVal → Option (List JVal)
  | [] => some []
  | JVal.obj afs :: rest =>
      (extractArticleUrls rest).map (fun us =>
        let u := (alookup afs "url").getD JVal.null
        if u.truthy then u :: us else us)
  | _ :: _ => none

/-- `web_verify`: `[]` without a credential; `[]` on any exception
(transport failure, malformed body, non-list `articles`, non-dict
article); otherwise the truthy `url` fields of the first three articles,
in order. -/
def web_verify (keyPresent : Bool) (resp : Option JVal) : List JVal :=
  if !keyPresent then []
  else
    match resp with
    | none => []
    | some j =>
      match j with
      | JVal.obj fs =>
        match (alookup fs "articles").getD (JVal.arr []) with
        | JVal.arr xs => (extractArticleUrls (xs.take 3)).getD []
        | _ => []
      | _ => []

/-- Python `repr`-like stringification of a `JVal` by structural depth
fuel, used by `_generate_with_model` where the source calls `str(...)` on
response content.  (No claim depends on its exact output.) -/
def reprJAux : Nat → JVal → String
  | 0, _ => ""
  | fuel + 1, v =>
    match v with
    | JVal.null => "None"
    | JVal.bool b => if b then "True" else "False"
    | JVal.num q => toString q
    | JVal.str s => String.singleton '\x27' ++ s ++ String.singleton '\x27'
    | JVal.arr xs =>
      "[" ++ String.intercalate ", " (xs.map (reprJAux fuel)) ++ "]"
    | JVal.obj fs =>
      String.singleton openBrace ++
        String.intercalate ", "
          (fs.map (fun kv => String.singleton '\x27' ++ kv.1 ++
            String.singleton '\x27' ++ ": " ++ reprJAux fuel kv.2)) ++
        String.singleton closeBrace

mutual

/-- Nesting depth of a `JVal`, used as recursion fuel for `reprJ`. -/
def jDepth : JVal → Nat
  | JVal.arr xs => jDepthList xs + 1
  | JVal.obj fs => jDepthFields fs + 1
  | _ => 1

/-- Maximum depth over a list of values. -/
def jDepthList : List JVal → Nat
  | [] => 0
  | x :: rest => max (jDepth x) (jDepthList rest)

/-- Maximum depth over dict entries. -/
def jDepthFields : List (String × JVal) → Nat
  | [] => 0
  | (_, v) :: rest => max (jDepth v) (jDepthFields rest)

end

/-- `str(v)` for a JSON-like value (`jDepth` bounds the nesting depth). -/
def reprJ (v : JVal) : String := reprJAux (jDepth v) v

/-- The shape of the object the generative-model client hands back
(`model.generate_content` at line 95 of `app.py`), or its failure. -/
inductive GenResp where
  | raised (e : String)
  | textAttr (t : JVal)
  | contentList (xs : List JVal)
  | contentDict (fs : List (String × JVal))
  | contentOther (s : String)
  | plain (s : String)

/-- Is this `JVal` a string? -/
def isStrJ : JVal → Bool
  | JVal.str _ => true
  | _ => false

/-- Underlying string of a string `JVal` (defaulting to `""`). -/
def strOfJ : JVal → String
  | JVal.str s => s
  | _ => ""

/-- `_generate_with_model`: returns `(text, error)`.  `text` is a `JVal`
because a response whose `text` attribute (or content-dict `text` entry)
is not a string is passed through unchanged by the Python code.  In the
content-list shape, a non-string piece makes `"\n".join` raise, which the
code catches by falling back to `str(resp.content)`. -/
def generate_with_model (configured : Bool) (resp : GenResp) :
    Option JVal × Option String :=
  if !configured then
    (none, some "Model not configured (missing GEMINI_API_KEY).")
  else
    match resp with
    | GenResp.raised e => (none, some ("Model request failed: " ++ e))
    | GenResp.textAttr t => (some t, none)
    | GenResp.contentList xs =>
      let pieces := xs.map (fun it =>
        match it with
        | JVal.obj fs => (alookup fs "text").getD (JVal.str (reprJ (JVal.obj fs)))
        | v => JVal.str (reprJ v))
      if pieces.all isStrJ then
        (some (JVal.str (String.intercalate "\n" (pieces.map strOfJ))), none)
      else (some (JVal.str (reprJ (JVal.arr xs))), none)
    | GenResp.contentDict fs =>
      (some ((alookup fs "text").getD (JVal.str (reprJ (JVal.obj fs)))), none)
    | GenResp.contentOther s => (some (JVal.str s), none)
    | GenResp.plain s => (some (JVal.str s), none)

/-- `_extract_json_from_text` applied to whatever value the model client
returned: a falsy value yields `None`; on a truthy non-string,
`json.loads` raises a `TypeError` that line 133 catches, but the
`re.search` at line 136 raises one that nothing catches. -/
def extract_json_dynamic (t : JVal) : Except Unit (Option (List (String × JVal))) :=
  if !t.truthy then Except.ok none
  else
    match t with
    | JVal.str s => Except.ok (extract_json_from_text s)
    | _ => Except.error ()

/-- `len(v)`: defined for strings, lists and dicts; a `TypeError`
otherwise. -/
def pyLenE : JVal → Except Unit Nat
  | JVal.str s => Except.ok s.length
  | JVal.arr xs => Except.ok xs.length
  | JVal.obj fs => Except.ok fs.length
  | _ => Except.error ()

/-- `v[0]`: first element of a list, first character of a string (as a
one-character string); a `KeyError` on dicts (whose keys are strings) and
a `TypeError` otherwise. -/
def pyIndex0 : JVal → Except Unit JVal
  | JVal.arr (x :: _) => Except.ok x
  | JVal.arr [] => Except.error ()
  | JVal.str s =>
    match s.data with
    | c :: _ => Except.ok (JVal.str (String.mk [c]))
    | [] => Except.error ()
  | _ => Except.error ()

/-- `v.get(k, default)`: an `AttributeError` when `v` is not a dict. -/
def pyGetE (v : JVal) (k : String) (d : JVal) : Except Unit JVal :=
  match v with
  | JVal.obj fs => Except.ok ((alookup fs k).getD d)
  | _ => Except.error ()

/-- Python `a or b` under truthiness. -/
def pyOr (a b : JVal) : JVal := if a.truthy then a else b

/-- Lines 168-181 of `app.py`: extract the first claim's first review and
build the fixed-confidence fact-check result.  Any raised step becomes
`Except.error`, which `verify_claim` swallows. -/
def fcExtract (claim dk : String) (claims : JVal) :
    Except Unit (List (String × JVal)) :=
  match pyIndex0 claims with
  | Except.error e => Except.error e
  | Except.ok claimData =>
    match pyGetE claimData "claimReview" (JVal.arr [JVal.obj []]) with
    | Except.error e => Except.error e
    | Except.ok cr =>
      match pyIndex0 cr with
      | Except.error e => Except.error e
      | Except.ok review =>
        match pyGetE review "textualRating" JVal.null,
              pyGetE review "title" JVal.null,
              pyGetE review "explanation" JVal.null,
              pyGetE review "url" JVal.null with
        | Except.ok tr, Except.ok ti, Except.ok ex, Except.ok ur =>
          let status := pyOr tr (pyOr ti (JVal.str "Unverified"))
          let explanation := pyOr ti (pyOr tr (pyOr ex (JVal.str "")))
          let url := pyOr ur (JVal.str "")
          Except.ok
            [("claim", JVal.str claim), ("domain", JVal.str dk),
             ("status", status), ("confidence", JVal.num ((95 : Rat) / 100)),
             ("explanation", explanation),
             ("sources", if url.truthy then JVal.arr [url] else JVal.arr [])]
        | _, _, _, _ => Except.error ()

/-- Stage 1 of `verify_claim` (lines 165-184): returns the fact-check
result, or `none` when the guard fails or any step raises (the
surrounding `try` swallows every exception and falls through). -/
def factCheckStage (claim dk : String) (fc : JVal) :
    Option (List (String × JVal)) :=
  match fc with
  | JVal.obj fs =>
    if (JVal.obj fs).truthy then
      match alookup fs "claims" with
      | some claims =>
        match pyLenE claims with
        | Except.ok n =>
          if 0 < n then (fcExtract claim dk claims).toOption else none
        | Except.error _ => none
      | none => none
    else none
  | _ => none

/-- Whitespace stripped by Python `float()` from a string argument. -/
def isPyFloatWs (c : Char) : Bool :=
  c == ' ' || c == '\t' || c == '\n' || c == '\r' || c == '\x0b' || c == '\x0c'

/-- String argument of Python `float()`: strip whitespace, then an
optional sign and a decimal literal with optional fraction and exponent.
(The "inf"/"nan" spellings, which Python accepts but which have no
rational value, are treated as failures here.) -/
def parseFloatStr (s : String) : Except Unit Rat :=
  let cs := ((s.data.dropWhile isPyFloatWs).reverse.dropWhile
      isPyFloatWs).reverse
  let (neg, cs1) : Bool × List Char :=
    match cs with
    | '-' :: t => (true, t)
    | '+' :: t => (false, t)
    | t => (false, t)
  let intDs := cs1.takeWhile Char.isDigit
  let cs2 := cs1.dropWhile Char.isDigit
  let hasDot : Bool := match cs2 with | '.' :: _ => true | _ => false
  let fracDs := if hasDot then cs2.tail.takeWhile Char.isDigit else []
  let cs3 := if hasDot then cs2.tail.dropWhile Char.isDigit else cs2
  if intDs.isEmpty && fracDs.isEmpty then Except.error ()
  else
    match parseExp cs3 with
    | none => Except.error ()
    | some (expNeg, expDs, cs4) =>
      if !cs4.isEmpty then Except.error ()
      else
        let mant : Int := Int.ofNat (digitsToNat (intDs ++ fracDs))
        let mant : Int := if neg then -mant else mant
        let base : Rat := mkRat mant (10 ^ fracDs.length)
        if expDs = [] then Except.ok base
        else if expNeg then Except.ok (base / ((10 : Rat) ^ digitsToNat expDs))
        else Except.ok (base * ((10 : Rat) ^ digitsToNat expDs))

/-- `float(v)`. -/
def pyFloat : JVal → Except Unit Rat
  | JVal.num q => Except.ok q
  | JVal.bool b => Except.ok (if b then 1 else 0)
  | JVal.str s => parseFloatStr s
  | _ => Except.error ()

/-- Lines 209-212: read `confidence` (default 0), collapse falsy values to
0, coerce with `float`, and fall back to `0.0` when that raises. -/
def coerceConfidence (parsed : List (String × JVal)) : Rat :=
  let v := (alookup parsed "confidence").getD (JVal.num 0)
  let v := if v.truthy then v else JVal.num 0
  match pyFloat v with
  | Except.ok q => q
  | Except.error _ => 0

/-- Lines 209-218 (and identically 244-253) of `app.py`: in-place
normalization of a parsed model mapping — set `confidence`, substitute
`fallback` for an absent or falsy `sources`, and `setdefault` the four
text fields. -/
def normalize (parsed : List (String × JVal)) (claim dk : String)
    (fallback : List JVal) : List (String × JVal) :=
  let p1 := dset parsed "confidence" (JVal.num (coerceConfidence parsed))
  let p2 :=
    if ((alookup p1 "sources").getD JVal.null).truthy then p1
    else dset p1 "sources" (JVal.arr fallback)
  let p3 := dsetdefault p2 "claim" (JVal.str claim)
  let p4 := dsetdefault p3 "domain" (JVal.str dk)
  let p5 := dsetdefault p4 "status" (JVal.str "Unverified")
  dsetdefault p5 "explanation"
    ((alookup p5 "explanation").getD (JVal.str "No explanation provided"))

/-- The degraded result of lines 221-228 (web evidence found, model
unusable). -/
def degraded40 (claim dk : String) (urls : List JVal) : List (String × JVal) :=
  [("claim", JVal.str claim), ("domain", JVal.str dk),
   ("status", JVal.str "Unverified"),
   ("confidence", JVal.num ((40 : Rat) / 100)),
   ("explanation",
    JVal.str "Insufficient verifiable evidence from news + model response unparsable."),
   ("sources", JVal.arr urls)]

/-- The domain's trusted-source list as result sources
(`DOMAIN_SOURCES.get(domain_key, [])`). -/
def fallbackSources (dk : String) : List JVal :=
  ((alookup DOMAIN_SOURCES dk).getD []).map JVal.str

/-- The terminal result of lines 257-264 (no evidence at all). -/
def terminal30 (claim dk : String) : List (String × JVal) :=
  [("claim", JVal.str claim), ("domain", JVal.str dk),
   ("status", JVal.str "Unverified"),
   ("confidence", JVal.num ((30 : Rat) / 100)),
   ("explanation",
    JVal.str "No fact-check / news results and model could not provide a parseable response."),
   ("sources", JVal.arr (fallbackSources dk))]

/-- External-service behaviour for one `verify_claim` run: the fact-check
HTTP outcome, the news HTTP outcome, and the model responses to the two
possible prompts. -/
structure Env where
  fcKeyPresent : Bool
  fcHttp : Option (Nat × JVal)
  newsKeyPresent : Bool
  newsResp : Option JVal
  modelConfigured : Bool
  modelResp1 : GenResp
  modelResp2 : GenResp

/-- Text returned by the model client for the first (web-evidence)
prompt. -/
def genText1 (env : Env) : Option JVal :=
  (generate_with_model env.modelConfigured env.modelResp1).1

/-- Text returned by the model client for the second (trusted-sources)
prompt. -/
def genText2 (env : Env) : Option JVal :=
  (generate_with_model env.modelConfigured env.modelResp2).1

/-- The generate-extract-normalize block that lines 204-228 and 240-264
of `app.py` both follow: when the model text is truthy and a JSON mapping
is extracted, normalize it (`parsedResult`); when the text is falsy,
absent or unparsable, return the stage's fixed fallback result; a truthy
non-string text raises an uncaught `TypeError` in `re.search`. -/
def modelStage (text : Option JVal)
    (parsedResult : List (String × JVal) → List (String × JVal))
    (fallbackResult : List (String × JVal)) :
    Except Unit (List (String × JVal)) :=
  match text with
  | some t =>
    if t.truthy then
      match extract_json_dynamic t with
      | Except.error e => Except.error e
      | Except.ok (some parsed) => Except.ok (parsedResult parsed)
      | Except.ok none => Except.ok fallbackResult
    else Except.ok fallbackResult
  | none => Except.ok fallbackResult

/-- Stage 2 of `verify_claim` (lines 186-228), entered when web evidence
exists: normalize with the web URLs as fallback sources; degraded 0.40
result otherwise. -/
def webModelStage (env : Env) (claim dk : String) (urls : List JVal) :
    Except Unit (List (String × JVal)) :=
  modelStage (genText1 env) (fun parsed => normalize parsed claim dk urls)
    (degraded40 claim dk urls)

/-- Stage 3 of `verify_claim` (lines 230-264): like stage 2 but grounded
in the trusted-source list, falling back to the 0.30 terminal result. -/
def trustedModelStage (env : Env) (claim dk : String) :
    Except Unit (List (String × JVal)) :=
  modelStage (genText2 env)
    (fun parsed => normalize parsed claim dk (fallbackSources dk))
    (terminal30 claim dk)

/-- The external calls `verify_claim` issues, in order. -/
inductive Call where
  | factCheck
  | webSearch
  | modelGen
deriving Repr, DecidableEq

/-- `verify_claim` with the already-normalized domain key: stage 1 short-
circuits on success; otherwise the web search decides between stages 2
and 3.  The second component records which external stages were
invoked. -/
def verify_with_key (env : Env) (claim : String) (dk : String) :
    Except Unit (List (String × JVal)) × List Call :=
  match factCheckStage claim dk (fact_check_search env.fcKeyPresent env.fcHttp) with
  | some res => (Except.ok res, [Call.factCheck])
  | none =>
    let urls := web_verify env.newsKeyPresent env.newsResp
    if urls.isEmpty then
      (trustedModelStage env claim dk, [Call.factCheck, Call.webSearch, Call.modelGen])
    else
      (webModelStage env claim dk urls, [Call.factCheck, Call.webSearch, Call.modelGen])

/-- `verify_claim(claim, domain)` (lines 151-264 of `app.py`). -/
def verify_claim (env : Env) (claim : String) (domain : JVal) :
    Except Unit (List (String × JVal)) × List Call :=
  verify_with_key env claim (normalizeDomainKey domain)

/-- The six fields of the canonical `VerificationResult` schema. -/
def RESULT_KEYS : List String :=
  ["claim", "domain", "status", "confidence", "explanation", "sources"]

/-- All six schema fields are present. -/
def hasAllKeys (fs : List (String × JVal)) : Bool :=
  RESULT_KEYS.all (fun k => (alookup fs k).isSome)

theorem alookup_dset_self (fs : List (String × JVal)) (k : String) (v : JVal) :
    alookup (dset fs k v) k = some v := by
  induction fs with
  | nil => simp [dset, alookup]
  | cons kv rest ih =>
    obtain ⟨a, b⟩ := kv
    by_cases h : a = k
    · simp [dset, h, alookup]
    · simp [dset, h, alookup, ih]

theorem alookup_dset_ne (fs : List (String × JVal)) (k : String) (v : JVal)
    (k' : String) (h : ¬ k = k') :
    alookup (dset fs k v) k' = alookup fs k' := by
  induction fs with
  | nil => simp [dset, alookup, h]
  | cons kv rest ih =>
    obtain ⟨a, b⟩ := kv
    by_cases ha : a = k
    · subst ha; simp [dset, alookup, h, ih]
    · simp [dset, ha, alookup, ih]

theorem alookup_append_some {β : Type} (l1 l2 : List (String × β)) (k : String)
    (v : β) (h : alookup l1 k = some v) : alookup (l1 ++ l2) k = some v := by
  induction l1 with
  | nil => simp [alookup] at h
  | cons kv rest ih =>
    obtain ⟨a, b⟩ := kv
    by_cases ha : a = k
    · simp [alookup, ha] at h ⊢; exact h
    · simp [alookup, ha] at h ⊢; exact ih h

theorem alookup_append_none {β : Type} (l1 l2 : List (String × β)) (k : String)
    (h : alookup l1 k = none) : alookup (l1 ++ l2) k = alookup l2 k := by
  induction l1 with
  | nil => simp [alookup]
  | cons kv rest ih =>
    obtain ⟨a, b⟩ := kv
    by_cases ha : a = k
    · simp [alookup, ha] at h
    · simp [alookup, ha] at h ⊢; exact ih h

theorem alookup_dsetdefault_self (fs : List (String × JVal)) (k : String)
    (v : JVal) :
    alookup (dsetdefault fs k v) k = some ((alookup fs k).getD v) := by
  unfold dsetdefault
  cases h : alookup fs k with
  | some w => simp [h]
  | none =>
    simp only [h]
    rw [alookup_append_none _ _ _ h]
    simp [alookup]

theorem alookup_dsetdefault_ne (fs : List (String × JVal)) (k : String)
    (v : JVal) (k' : String) (h : ¬ k = k') :
    alookup (dsetdefault fs k v) k' = alookup fs k' := by
  unfold dsetdefault
  cases hk : alookup fs k with
  | some w => rfl
  | none =>
    cases hk' : alookup fs k' with
    | some w => exact alookup_append_some _ _ _ _ hk'
    | none => rw [alookup_append_none _ _ _ hk']; simp [alookup, h]

/-- Inside `normalize`, lookups of any key other than `"sources"` pass
through the conditional `sources` substitution. -/
theorem alookup_normalizeSrcStep (p1 : List (String × JVal)) (fb : List JVal)
    (x : String) (hx : ¬ x = "sources") :
    alookup (if ((alookup p1 "sources").getD JVal.null).truthy then p1
             else dset p1 "sources" (JVal.arr fb)) x = alookup p1 x := by
  by_cases ht : ((alookup p1 "sources").getD JVal.null).truthy = true
  · rw [if_pos ht]
  · rw [if_neg ht]
    exact alookup_dset_ne _ _ _ _ (fun h => hx h.symm)

theorem normalize_confidence (m : List (String × JVal)) (c dk : String)
    (fb : List JVal) :
    alookup (normalize m c dk fb) "confidence" =
      some (JVal.num (coerceConfidence m)) := by
  simp only [normalize]
  rw [alookup_dsetdefault_ne _ _ _ _ (by decide : ¬"explanation" = "confidence"),
      alookup_dsetdefault_ne _ _ _ _ (by decide : ¬"status" = "confidence"),
      alookup_dsetdefault_ne _ _ _ _ (by decide : ¬"domain" = "confidence"),
      alookup_dsetdefault_ne _ _ _ _ (by decide : ¬"claim" = "confidence"),
      alookup_normalizeSrcStep _ _ _ (by decide),
      alookup_dset_self]

theorem normalize_sources (m : List (String × JVal)) (c dk : String)
    (fb : List JVal) :
    alookup (normalize m c dk fb) "sources" =
      (if ((alookup m "sources").getD JVal.null).truthy
       then alookup m "sources" else some (JVal.arr fb)) := by
  simp only [normalize]
  rw [alookup_dsetdefault_ne _ _ _ _ (by decide : ¬"explanation" = "sources"),
      alookup_dsetdefault_ne _ _ _ _ (by decide : ¬"status" = "sources"),
      alookup_dsetdefault_ne _ _ _ _ (by decide : ¬"domain" = "sources"),
      alookup_dsetdefault_ne _ _ _ _ (by decide : ¬"claim" = "sources"),
      alookup_dset_ne _ _ _ _ (by decide : ¬"confidence" = "sources")]
  by_cases ht : ((alookup m "sources").getD JVal.null).truthy = true
  · rw [if_pos ht, if_pos ht,
        alookup_dset_ne _ _ _ _ (by decide : ¬"confidence" = "sources")]
  · rw [if_neg ht, if_neg ht, alookup_dset_self]

theorem normalize_claim (m : List (String × JVal)) (c dk : String)
    (fb : List JVal) :
    alookup (normalize m c dk fb) "claim" =
      some ((alookup m "claim").getD (JVal.str c)) := by
  simp only [normalize]
  rw [alookup_dsetdefault_ne _ _ _ _ (by decide : ¬"explanation" = "claim"),
      alookup_dsetdefault_ne _ _ _ _ (by decide : ¬"status" = "claim"),
      alookup_dsetdefault_ne _ _ _ _ (by decide : ¬"domain" = "claim"),
      alookup_dsetdefault_self,
      alookup_normalizeSrcStep _ _ _ (by decide),
      alookup_dset_ne _ _ _ _ (by decide : ¬"confidence" = "claim")]

theorem normalize_domain (m : List (String × JVal)) (c dk : String)
    (fb : List JVal) :
    alookup (normalize m c dk fb) "domain" =
      some ((alookup m "domain").getD (JVal.str dk)) := by
  simp only [normalize]
  rw [alookup_dsetdefault_ne _ _ _ _ (by decide : ¬"explanation" = "domain"),
      alookup_dsetdefault_ne _ _ _ _ (by decide : ¬"status" = "domain"),
      alookup_dsetdefault_self,
      alookup_dsetdefault_ne _ _ _ _ (by decide : ¬"claim" = "domain"),
      alookup_normalizeSrcStep _ _ _ (by decide),
      alookup_dset_ne _ _ _ _ (by decide : ¬"confidence" = "domain")]

theorem normalize_status (m : List (String × JVal)) (c dk : String)
    (fb : List JVal) :
    alookup (normalize m c dk fb) "status" =
      some ((alookup m "status").getD (JVal.str "Unverified")) := by
  simp only [normalize]
  rw [alookup_dsetdefault_ne _ _ _ _ (by decide : ¬"explanation" = "status"),
      alookup_dsetdefault_self,
      alookup_dsetdefault_ne _ _ _ _ (by decide : ¬"domain" = "status"),
      alookup_dsetdefault_ne _ _ _ _ (by decide : ¬"claim" = "status"),
      alookup_normalizeSrcStep _ _ _ (by decide),
      alookup_dset_ne _ _ _ _ (by decide : ¬"confidence" = "status")]

theorem normalize_explanation (m : List (String × JVal)) (c dk : String)
    (fb : List JVal) :
    alookup (normalize m c dk fb) "explanation" =
      some ((alookup m "explanation").getD
        (JVal.str "No explanation provided")) := by
  simp only [normalize]
  rw [alookup_dsetdefault_self,
      alookup_dsetdefault_ne _ _ _ _ (by decide : ¬"status" = "explanation"),
      alookup_dsetdefault_ne _ _ _ _ (by decide : ¬"domain" = "explanation"),
      alookup_dsetdefault_ne _ _ _ _ (by decide : ¬"claim" = "explanation"),
      alookup_normalizeSrcStep _ _ _ (by decide),
      alookup_dset_ne _ _ _ _ (by decide : ¬"confidence" = "explanation")]
  cases alookup m "explanation" <;> simp

/-- Frame property of the normalizer: any key outside the six schema
fields is untouched. -/
theorem normalize_frame (m : List (String × JVal)) (c dk : String)
    (fb : List JVal) (k : String) (hk : ¬ k ∈ RESULT_KEYS) :
    alookup (normalize m c dk fb) k = alookup m k := by
  simp only [RESULT_KEYS, List.mem_cons, List.mem_singleton, not_or] at hk
  obtain ⟨h1, h2, h3, h4, h5, h6⟩ := hk
  simp only [normalize]
  rw [alookup_dsetdefault_ne _ _ _ _ (fun h => h5 h.symm),
      alookup_dsetdefault_ne _ _ _ _ (fun h => h3 h.symm),
      alookup_dsetdefault_ne _ _ _ _ (fun h => h2 h.symm),
      alookup_dsetdefault_ne _ _ _ _ (fun h => h1 h.symm),
      alookup_normalizeSrcStep _ _ _ h6.1,
      alookup_dset_ne _ _ _ _ (fun h => h4 h.symm)]

theorem hasAllKeys_normalize (m : List (String × JVal)) (c dk : String)
    (fb : List JVal) : hasAllKeys (normalize m c dk fb) = true := by
  have hsrc : (alookup (normalize m c dk fb) "sources").isSome = true := by
    rw [normalize_sources]
    by_cases ht : ((alookup m "sources").getD JVal.null).truthy = true
    · rw [if_pos ht]
      cases h : alookup m "sources" with
      | some v => simp
      | none => rw [h] at ht; simp [JVal.truthy] at ht
    · rw [if_neg ht]; simp
  simp [hasAllKeys, RESULT_KEYS, normalize_confidence, normalize_claim,
    normalize_domain, normalize_status, normalize_explanation, hsrc]

/-- The model text is either absent or a string when truthy (every real
provider response satisfies this; a truthy non-string `text` crashes the
pipeline). -/
def safeTextB : Option JVal → Bool
  | none => true
  | some (JVal.str _) => true
  | some t => !t.truthy

/-- Model generation failed, produced falsy text, or produced text with
no extractable JSON mapping. -/
def modelUnusable (text : Option JVal) : Prop :=
  match text with
  | none => True
  | some t => extract_json_dynamic t = Except.ok none

theorem modelStage_unusable (text : Option JVal)
    (pr : List (String × JVal) → List (String × JVal))
    (fb : List (String × JVal)) (h : modelUnusable text) :
    modelStage text pr fb = Except.ok fb := by
  cases text with
  | none => rfl
  | some t =>
    simp only [modelUnusable] at h
    simp only [modelStage]
    by_cases ht : t.truthy = true
    · rw [if_pos ht, h]
    · rw [if_neg ht]

theorem modelStage_parsed (text : Option JVal)
    (pr : List (String × JVal) → List (String × JVal))
    (fb : List (String × JVal)) (s : String)
    (parsed : List (String × JVal)) (h : text = some (JVal.str s))
    (hs : s.isEmpty = false) (hx : extract_json_from_text s = some parsed) :
    modelStage text pr fb = Except.ok (pr parsed) := by
  subst h
  simp only [modelStage]
  have ht : (JVal.str s).truthy = true := by simp [JVal.truthy, hs]
  rw [if_pos ht]
  have hd : extract_json_dynamic (JVal.str s) =
      Except.ok (extract_json_from_text s) := by
    unfold extract_json_dynamic
    rw [if_neg (by simp [ht])]
  rw [hd, hx]

theorem modelStage_ok (text : Option JVal)
    (pr : List (String × JVal) → List (String × JVal))
    (fb : List (String × JVal)) (hsafe : safeTextB text = true)
    (hpr : ∀ p, hasAllKeys (pr p) = true) (hfb : hasAllKeys fb = true) :
    ∃ fs, modelStage text pr fb = Except.ok fs ∧ hasAllKeys fs = true := by
  cases text with
  | none => exact ⟨fb, rfl, hfb⟩
  | some t =>
    simp only [modelStage]
    cases t with
    | str s =>
      by_cases ht : (JVal.str s).truthy = true
      · rw [if_pos ht]
        have hd : extract_json_dynamic (JVal.str s) =
            Except.ok (extract_json_from_text s) := by
          unfold extract_json_dynamic
          rw [if_neg (by simp [ht])]
        rw [hd]
        cases hx : extract_json_from_text s with
        | some parsed => exact ⟨pr parsed, rfl, hpr parsed⟩
        | none => exact ⟨fb, rfl, hfb⟩
      · rw [if_neg ht]; exact ⟨fb, rfl, hfb⟩
    | null => exact ⟨fb, by rw [if_neg (by simp [JVal.truthy])], hfb⟩
    | bool b =>
      have ht : (JVal.bool b).truthy = false := by
        simpa [safeTextB] using hsafe
      exact ⟨fb, by rw [if_neg (by simp [ht])], hfb⟩
    | num q =>
      have ht : (JVal.num q).truthy = false := by
        simpa [safeTextB] using hsafe
      exact ⟨fb, by rw [if_neg (by simp [ht])], hfb⟩
    | arr xs =>
      have ht : (JVal.arr xs).truthy = false := by
        simpa [safeTextB] using hsafe
      exact ⟨fb, by rw [if_neg (by simp [ht])], hfb⟩
    | obj fs =>
      have ht : (JVal.obj fs).truthy = false := by
        simpa [safeTextB] using hsafe
      exact ⟨fb, by rw [if_neg (by simp [ht])], hfb⟩

theorem hasAllKeys_degraded40 (c dk : String) (urls : List JVal) :
    hasAllKeys (degraded40 c dk urls) = true := rfl

theorem hasAllKeys_terminal30 (c dk : String) :
    hasAllKeys (terminal30 c dk) = true := rfl

/-- Successful stage-1 results are exactly the six-field literal built at
lines 173-180. -/
theorem fcExtract_ok (c dk : String) (claims : JVal)
    (res : List (String × JVal)) (h : fcExtract c dk claims = Except.ok res) :
    ∃ status expl srcs,
      res = [("claim", JVal.str c), ("domain", JVal.str dk),
             ("status", status), ("confidence", JVal.num ((95 : Rat) / 100)),
             ("explanation", expl), ("sources", srcs)] := by
  unfold fcExtract at h
  cases h1 : pyIndex0 claims with
  | error e => simp only [h1] at h; exact absurd h (by simp)
  | ok claimData =>
    simp only [h1] at h
    cases h2 : pyGetE claimData "claimReview" (JVal.arr [JVal.obj []]) with
    | error e => simp only [h2] at h; exact absurd h (by simp)
    | ok cr =>
      simp only [h2] at h
      cases h3 : pyIndex0 cr with
      | error e => simp only [h3] at h; exact absurd h (by simp)
      | ok review =>
        simp only [h3] at h
        cases review with
        | obj rfs =>
          simp only [pyGetE] at h
          injection h with h4
          exact ⟨_, _, _, h4.symm⟩
        | null => simp [pyGetE] at h
        | bool b => simp [pyGetE] at h
        | num q => simp [pyGetE] at h
        | str s => simp [pyGetE] at h
        | arr xs => simp [pyGetE] at h

theorem factCheckStage_some (c dk : String) (fc : JVal)
    (res : List (String × JVal)) (h : factCheckStage c dk fc = some res) :
    ∃ status expl srcs,
      res = [("claim", JVal.str c), ("domain", JVal.str dk),
             ("status", status), ("confidence", JVal.num ((95 : Rat) / 100)),
             ("explanation", expl), ("sources", srcs)] := by
  cases fc with
  | obj fs =>
    simp only [factCheckStage] at h
    by_cases htr : (JVal.obj fs).truthy = true
    · rw [if_pos htr] at h
      cases hcl : alookup fs "claims" with
      | none => simp only [hcl] at h; exact absurd h (by simp)
      | some claims =>
        simp only [hcl] at h
        cases hlen : pyLenE claims with
        | error e => simp only [hlen] at h; exact absurd h (by simp)
        | ok n =>
          simp only [hlen] at h
          by_cases hn : 0 < n
          · rw [if_pos hn] at h
            cases hfe : fcExtract c dk claims with
            | error e => simp only [hfe] at h; simp [Except.toOption] at h
            | ok r =>
              simp only [hfe] at h
              simp [Except.toOption] at h
              subst h
              exact fcExtract_ok _ _ _ _ hfe
          · rw [if_neg hn] at h
            exact absurd h (by simp)
    · rw [if_neg htr] at h; exact absurd h (by simp)
  | null => simp [factCheckStage] at h
  | bool b => simp [factCheckStage] at h
  | num q => simp [factCheckStage] at h
  | str s => simp [factCheckStage] at h
  | arr xs => simp [factCheckStage] at h

theorem extractArticleUrls_length :
    ∀ l r : List JVal, extractArticleUrls l = some r → r.length ≤ l.length := by
  intro l
  induction l with
  | nil =>
    intro r h
    simp only [extractArticleUrls, Option.some.injEq] at h
    subst h; simp
  | cons a rest ih =>
    intro r h
    cases a with
    | obj afs =>
      simp only [extractArticleUrls] at h
      cases hr : extractArticleUrls rest with
      | none => simp only [hr, Option.map_none'] at h; exact absurd h (by simp)
      | some us =>
        simp only [hr, Option.map_some', Option.some.injEq] at h
        subst h
        by_cases ht : (((alookup afs "url").getD JVal.null)).truthy = true
        · simp only [ht, if_true, List.length_cons]
          exact Nat.succ_le_succ (ih us hr)
        · simp only [ht, if_false, List.length_cons]
          exact Nat.le_succ_of_le (ih us hr)
    | null => simp [extractArticleUrls] at h
    | bool b => simp [extractArticleUrls] at h
    | num q => simp [extractArticleUrls] at h
    | str s => simp [extractArticleUrls] at h
    | arr xs => simp [extractArticleUrls] at h

/-- The `url` field an article contributes (`a.get("url")`). -/
def articleUrl : JVal → JVal
  | JVal.obj afs => (alookup afs "url").getD JVal.null
  | _ => JVal.null

theorem extractArticleUrls_objs :
    ∀ l : List JVal, (∀ a ∈ l, ∃ afs, a = JVal.obj afs) →
      extractArticleUrls l = some ((l.map articleUrl).filter JVal.truthy) := by
  intro l
  induction l with
  | nil => intro _; rfl
  | cons a rest ih =>
    intro h
    obtain ⟨afs, rfl⟩ := h a (by simp)
    simp only [extractArticleUrls]
    rw [ih (fun a ha => h a (List.mem_cons_of_mem _ ha))]
    simp [Option.map_some', List.map_cons, List.filter_cons, articleUrl]

theorem web_verify_length (k : Bool) (r : Option JVal) :
    (web_verify k r).length ≤ 3 := by
  unfold web_verify
  cases k with
  | false => simp
  | true =>
    simp only [Bool.not_true, Bool.false_eq_true, if_false]
    cases r with
    | none => simp
    | some j =>
      cases j with
      | obj fs =>
        cases harts : (alookup fs "articles").getD (JVal.arr []) with
        | arr xs =>
          simp only [harts]
          cases he : extractArticleUrls (xs.take 3) with
          | none => simp [he]
          | some us =>
            simp only [he, Option.getD_some]
            calc us.length ≤ (xs.take 3).length := extractArticleUrls_length _ _ he
              _ ≤ 3 := List.length_take_le ..
        | null => simp [harts]
        | bool b => simp [harts]
        | num q => simp [harts]
        | str s => simp [harts]
        | obj gs => simp [harts]
      | null => simp
      | bool b => simp
      | num q => simp
      | str s => simp
      | arr xs => simp

theorem web_verify_success (fs : List (String × JVal)) (arts : List JVal)
    (hart : alookup fs "articles" = some (JVal.arr arts))
    (hobjs : ∀ a ∈ arts.take 3, ∃ afs, a = JVal.obj afs) :
    web_verify true (some (JVal.obj fs)) =
      ((arts.take 3).map articleUrl).filter JVal.truthy := by
  unfold web_verify
  simp only [Bool.not_true, Bool.false_eq_true, if_false, hart, Option.getD_some]
  rw [extractArticleUrls_objs _ hobjs]
  rfl

theorem parseItems_isArr :
    ∀ fuel cs acc v r, parseItems fuel cs acc = some (v, r) →
      ∃ xs, v = JVal.arr xs := by
  intro fuel
  induction fuel with
  | zero => intro cs acc v r h; simp [parseItems] at h
  | succ f ih =>
    intro cs acc v r h
    simp only [parseItems] at h
    cases hv : parseVal f cs with
    | none => simp only [hv] at h; exact absurd h (by simp)
    | some p =>
      obtain ⟨w, r1⟩ := p
      simp only [hv] at h
      split at h
      · exact ih _ _ _ _ h
      · simp only [Option.some.injEq, Prod.mk.injEq] at h
        exact ⟨_, h.1.symm⟩
      · exact absurd h (by simp)

theorem parseNum_isNum (cs : List Char) (v : JVal) (r : List Char)
    (h : parseNum cs = some (v, r)) : ∃ q, v = JVal.num q := by
  unfold parseNum at h
  cases hx : parseNumAux cs with
  | none => simp [hx] at h
  | some p =>
    simp only [hx, Option.map_some', Option.some.injEq] at h
    exact ⟨p.1, (congrArg Prod.fst h).symm⟩

theorem mem_of_mem_dropWhile (p : Char → Bool) (cs : List Char) (c : Char)
    (h : c ∈ cs.dropWhile p) : c ∈ cs := by
  induction cs with
  | nil => simp [List.dropWhile] at h
  | cons a rest ih =>
    by_cases hp : p a = true
    · rw [List.dropWhile_cons, if_pos hp] at h
      exact List.mem_cons_of_mem _ (ih h)
    · rw [List.dropWhile_cons, if_neg hp] at h
      exact h

/-- `parseVal` can only return a JSON object when the input contains an
opening brace. -/
theorem parseVal_obj_mem :
    ∀ fuel cs fs r, parseVal fuel cs = some (JVal.obj fs, r) →
      openBrace ∈ cs := by
  intro fuel cs fs r h
  cases fuel with
  | zero => simp [parseVal] at h
  | succ f =>
    simp only [parseVal] at h
    cases hd : cs.dropWhile isJsonWs with
    | nil => simp only [hd] at h; exact absurd h (by simp)
    | cons c rest =>
      simp only [hd] at h
      by_cases hc : c = openBrace
      · subst hc
        exact mem_of_mem_dropWhile _ _ _ (by rw [hd]; exact List.mem_cons_self _ _)
      · rw [if_neg hc] at h
        by_cases hb : c = '['
        · rw [if_pos hb] at h
          cases hd2 : rest.dropWhile isJsonWs with
          | nil => simp only [hd2] at h; exact absurd h (by simp)
          | cons d rest2 =>
            simp only [hd2] at h
            by_cases hdd : d = ']'
            · rw [if_pos hdd] at h
              exact absurd h (by simp)
            · rw [if_neg hdd] at h
              obtain ⟨xs, hxs⟩ := parseItems_isArr _ _ _ _ _ h
              exact absurd hxs (by simp)
        · rw [if_neg hb] at h
          by_cases hq : c = '"'
          · rw [if_pos hq] at h
            cases hsb : parseStrBody (rest.length + 1) rest [] with
            | none => simp only [hsb] at h; exact absurd h (by simp)
            | some p =>
              obtain ⟨s, r2⟩ := p
              simp only [hsb] at h
              exact absurd h (by simp)
          · rw [if_neg hq] at h
            by_cases hT : c = 't'
            · rw [if_pos hT] at h
              by_cases h3 : rest.take 3 = ['r', 'u', 'e']
              · rw [if_pos h3] at h; exact absurd h (by simp)
              · rw [if_neg h3] at h; exact absurd h (by simp)
            · rw [if_neg hT] at h
              by_cases hF : c = 'f'
              · rw [if_pos hF] at h
                by_cases h4 : rest.take 4 = ['a', 'l', 's', 'e']
                · rw [if_pos h4] at h; exact absurd h (by simp)
                · rw [if_neg h4] at h; exact absurd h (by simp)
              · rw [if_neg hF] at h
                by_cases hN : c = 'n'
                · rw [if_pos hN] at h
                  by_cases h5 : rest.take 3 = ['u', 'l', 'l']
                  · rw [if_pos h5] at h; exact absurd h (by simp)
                  · rw [if_neg h5] at h; exact absurd h (by simp)
                · rw [if_neg hN] at h
                  by_cases hD : (c = '-' || c.isDigit) = true
                  · rw [if_pos hD] at h
                    obtain ⟨q, hq2⟩ := parseNum_isNum _ _ _ h
                    exact absurd hq2 (by simp)
                  · rw [if_neg hD] at h
                    exact absurd h (by simp)

theorem jsonLoads_obj_mem (s : String) (fs : List (String × JVal))
    (h : jsonLoads s = some (JVal.obj fs)) : openBrace ∈ s.data := by
  unfold jsonLoads at h
  cases hp : parseVal (2 * s.data.length + 8) s.data with
  | none => simp only [hp] at h; exact absurd h (by simp)
  | some p =>
    obtain ⟨v, r⟩ := p
    simp only [hp] at h
    by_cases hr : r.dropWhile isJsonWs = []
    · rw [if_pos hr] at h
      injection h with h2
      subst h2
      exact parseVal_obj_mem _ _ _ _ hp
    · rw [if_neg hr] at h
      exact absurd h (by simp)

theorem firstIdxAux_none (p : Char → Bool) :
    ∀ (cs : List Char) (i : Nat), (∀ c ∈ cs, p c = false) →
      firstIdxAux p cs i = none := by
  intro cs
  induction cs with
  | nil => intro i _; rfl
  | cons a rest ih =>
    intro i h
    simp only [firstIdxAux]
    rw [if_neg (by simp [h a (List.mem_cons_self _ _)])]
    exact ih _ (fun c hc => h c (List.mem_cons_of_mem _ hc))

theorem braceSnippet_none (s : String) (h : ¬ openBrace ∈ s.data) :
    braceSnippet s = none := by
  have hfst : firstIdxAux (fun c => c == openBrace) s.data 0 = none :=
    firstIdxAux_none _ _ _ (fun c hc => by
      cases hbe : c == openBrace with
      | false => rfl
      | true => exact absurd (by rw [eq_of_beq hbe] at hc; exact hc) h)
  simp only [braceSnippet, firstIdx, hfst]

/-- On text with no opening brace, `_extract_json_from_text` returns
`None`: the whole-text parse cannot yield a dict, and the brace search
fails. -/
theorem extract_json_no_brace (s : String) (h : ¬ openBrace ∈ s.data) :
    extract_json_from_text s = none := by
  unfold extract_json_from_text
  by_cases he : s.isEmpty = true
  · rw [if_pos he]
  · rw [if_neg he]
    cases hl : jsonLoads s with
    | none => simp only [hl, braceSnippet_none s h]
    | some v =>
      cases v with
      | obj fs => exact absurd (jsonLoads_obj_mem _ _ hl) h
      | null => simp only [hl, braceSnippet_none s h]
      | bool b => simp only [hl, braceSnippet_none s h]
      | num q => simp only [hl, braceSnippet_none s h]
      | str s2 => simp only [hl, braceSnippet_none s h]
      | arr xs => simp only [hl, braceSnippet_none s h]

/-- Claim C7: for every domain input, the key computed at the start of
`verify_claim` (and used by all later stages, since `verify_claim` is the
composition of `verify_with_key` with the normalization) is a key of the
trusted-source table: string inputs are title-cased and collapse to
`"General"` when the title-casing is not a table key; non-string inputs
become `"General"` directly. -/
theorem C7_domain_key_normalized :
    (∀ d : JVal, (alookup DOMAIN_SOURCES (normalizeDomainKey d)).isSome = true) ∧
    (∀ s : String, normalizeDomainKey (JVal.str s) =
      if (alookup DOMAIN_SOURCES (pyTitle s)).isSome then pyTitle s else "General") ∧
    normalizeDomainKey JVal.null = "General" ∧
    (∀ b, normalizeDomainKey (JVal.bool b) = "General") ∧
    (∀ q, normalizeDomainKey (JVal.num q) = "General") ∧
    (∀ xs, normalizeDomainKey (JVal.arr xs) = "General") ∧
    (∀ fs, normalizeDomainKey (JVal.obj fs) = "General") ∧
    (∀ env c d, verify_claim env c d = verify_with_key env c (normalizeDomainKey d)) := by
  refine ⟨?_, fun s => rfl, rfl, fun b => rfl, fun q => rfl, fun xs => rfl,
    fun fs => rfl, fun env c d => rfl⟩
  intro d
  cases d with
  | str s =>
    simp only [normalizeDomainKey]
    by_cases hk : (alookup DOMAIN_SOURCES (pyTitle s)).isSome = true
    · rw [if_pos hk]; exact hk
    · rw [if_neg hk]; decide
  | null => decide
  | bool b => cases b <;> decide
  | num q => rfl
  | arr xs => rfl
  | obj fs => rfl

/-- Claim C3 counterexample: the normalization step does not coerce
`confidence` into the range [0,1] (a numeric confidence of 2 survives
unchanged and 2 > 1), and a wrong-typed present field (`status` as the
number 7) is passed through untouched rather than being made a correctly
typed string. -/
theorem C3_cx :
    alookup (normalize [("confidence", JVal.num 2), ("status", JVal.num 7)]
      "c" "General" []) "confidence" = some (JVal.num 2) ∧
    alookup (normalize [("confidence", JVal.num 2), ("status", JVal.num 7)]
      "c" "General" []) "status" = some (JVal.num 7) ∧
    ¬ ((2 : Rat) ≤ 1) :=
  ⟨rfl, rfl, by decide⟩

/-- Claim C3 (amended): for every mapping `m`, normalization is total and
yields a mapping whose `confidence` is the numeric coercion of `m`'s
confidence (0.0 on invalid, missing or falsy input — but not clamped to
[0,1]); `sources` is the fallback list exactly when absent or falsy in
`m`; and `claim`, `domain`, `status`, `explanation` are each present,
defaulting to the passed-in claim, the passed-in domain, `"Unverified"`
and the fixed placeholder only when absent (present values of any type
pass through unchanged). -/
theorem C3_amended_normalize_total :
    ∀ (m : List (String × JVal)) (c dk : String) (fb : List JVal),
      alookup (normalize m c dk fb) "confidence" =
        some (JVal.num (coerceConfidence m)) ∧
      alookup (normalize m c dk fb) "sources" =
        (if ((alookup m "sources").getD JVal.null).truthy
         then alookup m "sources" else some (JVal.arr fb)) ∧
      alookup (normalize m c dk fb) "claim" =
        some ((alookup m "claim").getD (JVal.str c)) ∧
      alookup (normalize m c dk fb) "domain" =
        some ((alookup m "domain").getD (JVal.str dk)) ∧
      alookup (normalize m c dk fb) "status" =
        some ((alookup m "status").getD (JVal.str "Unverified")) ∧
      alookup (normalize m c dk fb) "explanation" =
        some ((alookup m "explanation").getD (JVal.str "No explanation provided")) ∧
      hasAllKeys (normalize m c dk fb) = true :=
  fun m c dk fb =>
    ⟨normalize_confidence m c dk fb, normalize_sources m c dk fb,
     normalize_claim m c dk fb, normalize_domain m c dk fb,
     normalize_status m c dk fb, normalize_explanation m c dk fb,
     hasAllKeys_normalize m c dk fb⟩

/-- Claim C9: the web-evidence search always returns at most 3 entries;
it returns `[]` without a credential and on failure; and on a successful
response whose first three articles are mappings it returns exactly their
truthy `url` fields in the service's order (entries without a `url` are
dropped). -/
theorem C9_web_verify_contract :
    (∀ (k : Bool) (r : Option JVal), (web_verify k r).length ≤ 3) ∧
    (∀ r, web_verify false r = []) ∧
    web_verify true none = [] ∧
    (∀ (fs : List (String × JVal)) (arts : List JVal),
      alookup fs "articles" = some (JVal.arr arts) →
      (∀ a ∈ arts.take 3, ∃ afs, a = JVal.obj afs) →
      web_verify true (some (JVal.obj fs)) =
        ((arts.take 3).map articleUrl).filter JVal.truthy) :=
  ⟨web_verify_length, fun _ => rfl, rfl, web_verify_success⟩

/-- Concrete article list for the C9 witness. -/
def c9Arts : List JVal :=
  [JVal.obj [("url", JVal.str "https://a.example")],
   JVal.obj [("title", JVal.str "no url here")],
   JVal.obj [("url", JVal.str "https://b.example")],
   JVal.obj [("url", JVal.str "https://c.example")]]

theorem C9_w :
    (web_verify true (some (JVal.obj [("articles", JVal.arr c9Arts)]))).length ≤ 3 ∧
    web_verify false (some (JVal.obj [("articles", JVal.arr c9Arts)])) = [] ∧
    web_verify true (some (JVal.obj [("articles", JVal.arr c9Arts)])) =
      ((c9Arts.take 3).map articleUrl).filter JVal.truthy :=
  ⟨C9_web_verify_contract.1 true _, C9_web_verify_contract.2.1 _,
   C9_web_verify_contract.2.2.2 _ c9Arts rfl (by
     intro a ha
     simp only [c9Arts, List.take, List.mem_cons, List.not_mem_nil, or_false] at ha
     rcases ha with h | h | h <;> exact ⟨_, h⟩)⟩

/-- Claim C10: on the two model-output paths, normalization modifies only
the six schema fields — every other key of the extracted mapping appears
unchanged in the returned result. -/
theorem C10_extra_keys_pass_through :
    (∀ (m : List (String × JVal)) (c dk : String) (fb : List JVal) (k : String),
      ¬ k ∈ RESULT_KEYS → alookup (normalize m c dk fb) k = alookup m k) ∧
    (∀ (env : Env) (c : String) (d : JVal) (s : String)
       (parsed : List (String × JVal)) (k : String),
      factCheckStage c (normalizeDomainKey d)
        (fact_check_search env.fcKeyPresent env.fcHttp) = none →
      web_verify env.newsKeyPresent env.newsResp ≠ [] →
      genText1 env = some (JVal.str s) →
      s.isEmpty = false →
      extract_json_from_text s = some parsed →
      ¬ k ∈ RESULT_KEYS →
      ∃ fs, (verify_claim env c d).1 = Except.ok fs ∧
        alookup fs k = alookup parsed k) ∧
    (∀ (env : Env) (c : String) (d : JVal) (s : String)
       (parsed : List (String × JVal)) (k : String),
      factCheckStage c (normalizeDomainKey d)
        (fact_check_search env.fcKeyPresent env.fcHttp) = none →
      web_verify env.newsKeyPresent env.newsResp = [] →
      genText2 env = some (JVal.str s) →
      s.isEmpty = false →
      extract_json_from_text s = some parsed →
      ¬ k ∈ RESULT_KEYS →
      ∃ fs, (verify_claim env c d).1 = Except.ok fs ∧
        alookup fs k = alookup parsed k) := by
  refine ⟨normalize_frame, ?_, ?_⟩
  · intro env c d s parsed k hfc hweb hg hs hx hk
    have hne : (web_verify env.newsKeyPresent env.newsResp).isEmpty = false := by
      cases hwv : web_verify env.newsKeyPresent env.newsResp with
      | nil => exact absurd hwv hweb
      | cons a l => rfl
    simp only [verify_claim, verify_with_key, hfc, hne, Bool.false_eq_true,
      if_false]
    simp only [webModelStage]
    rw [modelStage_parsed _ _ _ s parsed hg hs hx]
    exact ⟨_, rfl, normalize_frame parsed c _ _ k hk⟩
  · intro env c d s parsed k hfc hweb hg hs hx hk
    have hemp : (web_verify env.newsKeyPresent env.newsResp).isEmpty = true := by
      rw [hweb]; rfl
    simp only [verify_claim, verify_with_key, hfc, hemp, if_true]
    simp only [trustedModelStage]
    rw [modelStage_parsed _ _ _ s parsed hg hs hx]
    exact ⟨_, rfl, normalize_frame parsed c _ _ k hk⟩

/-- Environment for the C10 witness: stage 1 empty, one news article, and
a model answer that carries an extra `verdict` key. -/
def c10Env : Env :=
  { fcKeyPresent := false
    fcHttp := none
    newsKeyPresent := true
    newsResp := some (JVal.obj [("articles",
      JVal.arr [JVal.obj [("url", JVal.str "https://n.example/a")]])])
    modelConfigured := true
    modelResp1 := GenResp.textAttr
      (JVal.str "\x7b\"status\": \"True\", \"verdict\": \"odd\"\x7d")
    modelResp2 := GenResp.plain "" }

theorem C10_w :
    alookup (normalize [("extra", JVal.bool true)] "c" "General" []) "extra" =
      alookup [("extra", JVal.bool true)] "extra" ∧
    (∃ fs, (verify_claim c10Env "c" (JVal.str "Health")).1 = Except.ok fs ∧
      alookup fs "verdict" =
        alookup [("status", JVal.str "True"), ("verdict", JVal.str "odd")] "verdict") :=
  ⟨C10_extra_keys_pass_through.1 _ "c" "General" [] "extra" (by decide),
   C10_extra_keys_pass_through.2.1 c10Env "c" (JVal.str "Health")
     "\x7b\"status\": \"True\", \"verdict\": \"odd\"\x7d"
     [("status", JVal.str "True"), ("verdict", JVal.str "odd")] "verdict"
     rfl (fun h => List.noConfusion h) rfl rfl rfl (by decide)⟩

/-- Claim C4: when stage 1 yields nothing, the web search finds URLs, and
the model output is unusable (generation failed, falsy text, or no
extractable JSON mapping), `verify_claim` returns the fixed degraded
result: confidence exactly 0.40 (`40/100`), status `"Unverified"`, and
sources equal to the web-search URL list. -/
theorem C4_degraded_web_path :
    ∀ (env : Env) (c : String) (d : JVal),
      factCheckStage c (normalizeDomainKey d)
        (fact_check_search env.fcKeyPresent env.fcHttp) = none →
      web_verify env.newsKeyPresent env.newsResp ≠ [] →
      modelUnusable (genText1 env) →
      verify_claim env c d =
        (Except.ok (degraded40 c (normalizeDomainKey d)
          (web_verify env.newsKeyPresent env.newsResp)),
         [Call.factCheck, Call.webSearch, Call.modelGen]) := by
  intro env c d hfc hweb hmu
  have hne : (web_verify env.newsKeyPresent env.newsResp).isEmpty = false := by
    cases hwv : web_verify env.newsKeyPresent env.newsResp with
    | nil => exact absurd hwv hweb
    | cons a l => rfl
  simp only [verify_claim, verify_with_key, hfc, hne, Bool.false_eq_true,
    if_false]
  simp only [webModelStage]
  rw [modelStage_unusable _ _ _ hmu]

/-- Environment for the C4 witness: no fact-check credential, one news
article, no model credential. -/
def c4Env : Env :=
  { fcKeyPresent := false
    fcHttp := none
    newsKeyPresent := true
    newsResp := some (JVal.obj [("articles",
      JVal.arr [JVal.obj [("url", JVal.str "https://n.example/a")]])])
    modelConfigured := false
    modelResp1 := GenResp.plain ""
    modelResp2 := GenResp.plain "" }

theorem C4_w :
    verify_claim c4Env "c" (JVal.str "Health") =
      (Except.ok (degraded40 "c" (normalizeDomainKey (JVal.str "Health"))
        (web_verify c4Env.newsKeyPresent c4Env.newsResp)),
       [Call.factCheck, Call.webSearch, Call.modelGen]) :=
  C4_degraded_web_path c4Env "c" (JVal.str "Health") rfl
    (fun h => List.noConfusion h) (by trivial)

/-- Claim C5: when stage 1 yields nothing, the web search returns no
URLs, and the model output for the trusted-sources prompt is unusable,
`verify_claim` returns the terminal result: confidence exactly 0.30
(`30/100`), status `"Unverified"`, and sources equal to the normalized
domain's trusted-source list. -/
theorem C5_terminal_fallback_path :
    ∀ (env : Env) (c : String) (d : JVal),
      factCheckStage c (normalizeDomainKey d)
        (fact_check_search env.fcKeyPresent env.fcHttp) = none →
      web_verify env.newsKeyPresent env.newsResp = [] →
      modelUnusable (genText2 env) →
      verify_claim env c d =
        (Except.ok (terminal30 c (normalizeDomainKey d)),
         [Call.factCheck, Call.webSearch, Call.modelGen]) := by
  intro env c d hfc hweb hmu
  have hemp : (web_verify env.newsKeyPresent env.newsResp).isEmpty = true := by
    rw [hweb]; rfl
  simp only [verify_claim, verify_with_key, hfc, hemp, if_true]
  simp only [trustedModelStage]
  rw [modelStage_unusable _ _ _ hmu]

/-- Environment for the C5 witness: no credentials at all. -/
def c5Env : Env :=
  { fcKeyPresent := false
    fcHttp := none
    newsKeyPresent := false
    newsResp := none
    modelConfigured := false
    modelResp1 := GenResp.plain ""
    modelResp2 := GenResp.plain "" }

theorem C5_w :
    verify_claim c5Env "c" (JVal.str "Climate") =
      (Except.ok (terminal30 "c" (normalizeDomainKey (JVal.str "Climate"))),
       [Call.factCheck, Call.webSearch, Call.modelGen]) :=
  C5_terminal_fallback_path c5Env "c" (JVal.str "Climate") rfl rfl (by trivial)

/-- Environment refuting claim C1: the model response object carries a
truthy non-string `text` attribute (the number 5), so
`_extract_json_from_text` reaches `re.search` with a non-string argument
and the resulting `TypeError` escapes `verify_claim`. -/
def c1CxEnv : Env :=
  { fcKeyPresent := false
    fcHttp := none
    newsKeyPresent := true
    newsResp := some (JVal.obj [("articles",
      JVal.arr [JVal.obj [("url", JVal.str "https://n.example/a")]])])
    modelConfigured := true
    modelResp1 := GenResp.textAttr (JVal.num 5)
    modelResp2 := GenResp.plain "" }

/-- Claim C1 counterexample: with an arbitrary model response object
(here one whose `text` attribute is the number 5), `verify_claim` raises
instead of returning a mapping — the uncaught `TypeError` from
`re.search` at line 136 of `app.py`. -/
theorem C1_cx :
    (verify_claim c1CxEnv "c" (JVal.str "Health")).1 = Except.error () := rfl

/-- Claim C1 (amended): provided the generation client's returned text is
absent or a string whenever truthy (as with every real response shape),
`verify_claim` returns without raising on every behaviour of the three
services, and the result is a mapping containing all six schema
fields. -/
theorem C1_amended_total :
    ∀ (env : Env) (c : String) (d : JVal),
      safeTextB (genText1 env) = true →
      safeTextB (genText2 env) = true →
      ∃ fs, (verify_claim env c d).1 = Except.ok fs ∧ hasAllKeys fs = true := by
  intro env c d h1 h2
  cases hfc : factCheckStage c (normalizeDomainKey d)
      (fact_check_search env.fcKeyPresent env.fcHttp) with
  | some res =>
    simp only [verify_claim, verify_with_key, hfc]
    obtain ⟨st, ex, sr, hres⟩ := factCheckStage_some _ _ _ _ hfc
    exact ⟨res, rfl, by rw [hres]; rfl⟩
  | none =>
    simp only [verify_claim, verify_with_key, hfc]
    by_cases hweb : (web_verify env.newsKeyPresent env.newsResp).isEmpty = true
    · simp only [hweb, if_true]
      exact modelStage_ok _ _ _ h2
        (fun p => hasAllKeys_normalize p c _ _) (hasAllKeys_terminal30 _ _)
    · have hf : (web_verify env.newsKeyPresent env.newsResp).isEmpty = false := by
        cases h : (web_verify env.newsKeyPresent env.newsResp).isEmpty
        · rfl
        · exact absurd h hweb
      simp only [hf, Bool.false_eq_true, if_false]
      exact modelStage_ok _ _ _ h1
        (fun p => hasAllKeys_normalize p c _ _) (hasAllKeys_degraded40 _ _ _)

/-- Environment for the C1 witness: no credentials configured. -/
def c1WEnv : Env :=
  { fcKeyPresent := false
    fcHttp := none
    newsKeyPresent := false
    newsResp := none
    modelConfigured := false
    modelResp1 := GenResp.plain ""
    modelResp2 := GenResp.plain "" }

theorem C1_w :
    safeTextB (genText1 c1WEnv) = true ∧
    safeTextB (genText2 c1WEnv) = true ∧
    ∃ fs, (verify_claim c1WEnv "c" (JVal.str "Health")).1 = Except.ok fs ∧
      hasAllKeys fs = true :=
  ⟨rfl, rfl, C1_amended_total c1WEnv "c" (JVal.str "Health") rfl rfl⟩

/-- Environment refuting claim C2: the fact-check response has a
non-empty `claims` list whose first entry is `null`, so line 169's
`claim_data.get` raises, the `except` swallows it, and the pipeline falls
through to the later stages instead of returning the 0.95 result. -/
def c2CxEnv : Env :=
  { fcKeyPresent := true
    fcHttp := some (200, JVal.obj [("claims", JVal.arr [JVal.null])])
    newsKeyPresent := false
    newsResp := none
    modelConfigured := false
    modelResp1 := GenResp.plain ""
    modelResp2 := GenResp.plain "" }

/-- Claim C2 counterexample: with a non-empty `claims` list (first entry
`null`), `verify_claim` does not return the 0.95 fact-check result — it
falls through to the terminal 0.30 result, and the web-search and
model-generation stages are invoked. -/
theorem C2_cx :
    verify_claim c2CxEnv "c" (JVal.str "Health") =
      (Except.ok (terminal30 "c" "Health"),
       [Call.factCheck, Call.webSearch, Call.modelGen]) ∧
    alookup (terminal30 "c" "Health") "confidence" =
      some (JVal.num ((30 : Rat) / 100)) ∧
    (30 : Rat) / 100 ≠ (95 : Rat) / 100 ∧
    Call.webSearch ∈ (verify_claim c2CxEnv "c" (JVal.str "Health")).2 :=
  ⟨rfl, rfl, by norm_num, by decide⟩

/-- Claim C2 (amended): when the fact-check search returns a mapping
whose `claims` value is a non-empty list whose first entry is a mapping,
and that entry's `claimReview` (defaulted to `[\x7b\x7d]` when absent)
has a mapping as first element, `verify_claim` returns immediately with
confidence exactly 0.95, status = the review's `textualRating` or `title`
or `"Unverified"`, explanation = `title` or `textualRating` or
`explanation` or `""`, sources = the one-element list of the review's
truthy `url` (else empty), and only the fact-check stage is invoked.
(A non-empty `claims` list with a malformed first entry instead raises
inside the stage's `try` and falls through — see the counterexample.) -/
theorem C2_amended_factcheck_short_circuit :
    ∀ (env : Env) (c : String) (d : JVal) (fs cfs : List (String × JVal))
      (rest : List JVal) (rfs : List (String × JVal)),
      fact_check_search env.fcKeyPresent env.fcHttp = JVal.obj fs →
      alookup fs "claims" = some (JVal.arr (JVal.obj cfs :: rest)) →
      pyIndex0 ((alookup cfs "claimReview").getD (JVal.arr [JVal.obj []])) =
        Except.ok (JVal.obj rfs) →
      verify_claim env c d =
        (Except.ok
          [("claim", JVal.str c),
           ("domain", JVal.str (normalizeDomainKey d)),
           ("status", pyOr ((alookup rfs "textualRating").getD JVal.null)
             (pyOr ((alookup rfs "title").getD JVal.null)
               (JVal.str "Unverified"))),
           ("confidence", JVal.num ((95 : Rat) / 100)),
           ("explanation", pyOr ((alookup rfs "title").getD JVal.null)
             (pyOr ((alookup rfs "textualRating").getD JVal.null)
               (pyOr ((alookup rfs "explanation").getD JVal.null)
                 (JVal.str "")))),
           ("sources",
            if (pyOr ((alookup rfs "url").getD JVal.null)
                  (JVal.str "")).truthy
            then JVal.arr [pyOr ((alookup rfs "url").getD JVal.null)
                  (JVal.str "")]
            else JVal.arr [])],
         [Call.factCheck]) := by
  intro env c d fs cfs rest rfs hfc hcl hrev
  have htr : (JVal.obj fs).truthy = true := by
    cases fs with
    | nil => simp [alookup] at hcl
    | cons a t => rfl
  have hstage : factCheckStage c (normalizeDomainKey d)
      (fact_check_search env.fcKeyPresent env.fcHttp) =
      some
        [("claim", JVal.str c),
         ("domain", JVal.str (normalizeDomainKey d)),
         ("status", pyOr ((alookup rfs "textualRating").getD JVal.null)
           (pyOr ((alookup rfs "title").getD JVal.null)
             (JVal.str "Unverified"))),
         ("confidence", JVal.num ((95 : Rat) / 100)),
         ("explanation", pyOr ((alookup rfs "title").getD JVal.null)
           (pyOr ((alookup rfs "textualRating").getD JVal.null)
             (pyOr ((alookup rfs "explanation").getD JVal.null)
               (JVal.str "")))),
         ("sources",
          if (pyOr ((alookup rfs "url").getD JVal.null)
                (JVal.str "")).truthy
          then JVal.arr [pyOr ((alookup rfs "url").getD JVal.null)
                (JVal.str "")]
          else JVal.arr [])] := by
    rw [hfc]
    simp only [factCheckStage, htr, if_true, hcl]
    simp only [pyLenE]
    rw [if_pos (by simp : 0 < (JVal.obj cfs :: rest).length)]
    unfold fcExtract
    have hidx : pyIndex0 (JVal.arr (JVal.obj cfs :: rest)) =
        Except.ok (JVal.obj cfs) := rfl
    have hget : pyGetE (JVal.obj cfs) "claimReview" (JVal.arr [JVal.obj []]) =
        Except.ok ((alookup cfs "claimReview").getD (JVal.arr [JVal.obj []])) :=
      rfl
    simp only [hidx, hget, hrev]
    simp only [pyGetE, Except.toOption]
  simp only [verify_claim, verify_with_key, hstage]

/-- Environment for the C2 witness: the spec's end-to-end example
(review rated "False", titled "Debunked by CDC"). -/
def c2WEnv : Env :=
  { fcKeyPresent := true
    fcHttp := some (200, JVal.obj [("claims", JVal.arr
      [JVal.obj [("claimReview", JVal.arr
        [JVal.obj [("textualRating", JVal.str "False"),
                   ("title", JVal.str "Debunked by CDC"),
                   ("url", JVal.str "https://cdc.gov/x")]])]])])
    newsKeyPresent := true
    newsResp := some (JVal.obj [("articles",
      JVal.arr [JVal.obj [("url", JVal.str "https://n.example/a")]])])
    modelConfigured := false
    modelResp1 := GenResp.plain ""
    modelResp2 := GenResp.plain "" }

theorem C2_w :
    verify_claim c2WEnv "Vaccines cause autism" (JVal.str "Health") =
      (Except.ok
        [("claim", JVal.str "Vaccines cause autism"),
         ("domain", JVal.str "Health"),
         ("status", JVal.str "False"),
         ("confidence", JVal.num ((95 : Rat) / 100)),
         ("explanation", JVal.str "Debunked by CDC"),
         ("sources", JVal.arr [JVal.str "https://cdc.gov/x"])],
       [Call.factCheck]) := by
  have h := C2_amended_factcheck_short_circuit c2WEnv "Vaccines cause autism"
    (JVal.str "Health")
    [("claims", JVal.arr
      [JVal.obj [("claimReview", JVal.arr
        [JVal.obj [("textualRating", JVal.str "False"),
                   ("title", JVal.str "Debunked by CDC"),
                   ("url", JVal.str "https://cdc.gov/x")]])]])]
    [("claimReview", JVal.arr
      [JVal.obj [("textualRating", JVal.str "False"),
                 ("title", JVal.str "Debunked by CDC"),
                 ("url", JVal.str "https://cdc.gov/x")]])]
    []
    [("textualRating", JVal.str "False"),
     ("title", JVal.str "Debunked by CDC"),
     ("url", JVal.str "https://cdc.gov/x")]
    rfl rfl rfl
  exact h

/-- Exhaustive outcome analysis of the generate-extract-normalize block:
a successful result is either the stage's fixed fallback or the
normalization of a mapping extracted from string model text. -/
theorem modelStage_cases (text : Option JVal)
    (pr : List (String × JVal) → List (String × JVal))
    (fb fs : List (String × JVal))
    (h : modelStage text pr fb = Except.ok fs) :
    fs = fb ∨ ∃ s parsed, text = some (JVal.str s) ∧
      extract_json_from_text s = some parsed ∧ fs = pr parsed := by
  cases text with
  | none =>
    simp only [modelStage] at h
    injection h with h1
    exact Or.inl h1.symm
  | some t =>
    simp only [modelStage] at h
    by_cases ht : t.truthy = true
    · rw [if_pos ht] at h
      cases t with
      | str s =>
        have hd : extract_json_dynamic (JVal.str s) =
            Except.ok (extract_json_from_text s) := by
          unfold extract_json_dynamic
          rw [if_neg (by simp [ht])]
        simp only [hd] at h
        cases hx : extract_json_from_text s with
        | some parsed =>
          simp only [hx] at h
          injection h with h1
          exact Or.inr ⟨s, parsed, rfl, hx, h1.symm⟩
        | none =>
          simp only [hx] at h
          injection h with h1
          exact Or.inl h1.symm
      | null => simp [JVal.truthy] at ht
      | bool b => simp [extract_json_dynamic, ht] at h
      | num q => simp [extract_json_dynamic, ht] at h
      | arr xs => simp [extract_json_dynamic, ht] at h
      | obj gs => simp [extract_json_dynamic, ht] at h
    · rw [if_neg ht] at h
      injection h with h1
      exact Or.inl h1.symm

/-- Environment refuting claim C8: the model's JSON carries its own
`claim` value, which `setdefault` does not overwrite. -/
def c8CxEnv : Env :=
  { fcKeyPresent := false
    fcHttp := none
    newsKeyPresent := true
    newsResp := some (JVal.obj [("articles",
      JVal.arr [JVal.obj [("url", JVal.str "https://n.example/a")]])])
    modelConfigured := true
    modelResp1 := GenResp.textAttr (JVal.str "\x7b\"claim\": \"other\"\x7d")
    modelResp2 := GenResp.plain "" }

/-- Claim C8 counterexample: on the web-plus-model path the returned
mapping's `claim` field is the model-supplied string `"other"`, not the
input claim — `setdefault("claim", claim)` only fills an absent key. -/
theorem C8_cx :
    (verify_claim c8CxEnv "input claim" (JVal.str "Health")).1 =
      Except.ok
        [("claim", JVal.str "other"),
         ("confidence", JVal.num 0),
         ("sources", JVal.arr [JVal.str "https://n.example/a"]),
         ("domain", JVal.str "Health"),
         ("status", JVal.str "Unverified"),
         ("explanation", JVal.str "No explanation provided")] ∧
    ("other" : String) ≠ "input claim" :=
  ⟨rfl, by decide⟩

/-- The model text (if any) contributes no `claim` key: generation
failed, text is not a string, extraction fails, or the extracted mapping
lacks a `claim` entry. -/
def claimKeyFree : Option JVal → Bool
  | some (JVal.str s) =>
    (match extract_json_from_text s with
     | some m => (alookup m "claim").isNone
     | none => true)
  | _ => true

/-- Claim C8 (amended): every successful result carries a `claim` field;
it equals the input claim whenever neither model response supplies a
`claim` key of its own (in particular on the fact-check, degraded and
terminal paths); a model-supplied `claim` value passes through
unchanged. -/
theorem C8_amended_claim_echo :
    ∀ (env : Env) (c : String) (d : JVal) (fs : List (String × JVal)),
      (verify_claim env c d).1 = Except.ok fs →
      (alookup fs "claim").isSome = true ∧
      (claimKeyFree (genText1 env) = true →
       claimKeyFree (genText2 env) = true →
       alookup fs "claim" = some (JVal.str c)) := by
  intro env c d fs h
  cases hfc : factCheckStage c (normalizeDomainKey d)
      (fact_check_search env.fcKeyPresent env.fcHttp) with
  | some res =>
    simp only [verify_claim, verify_with_key, hfc] at h
    injection h with h1
    obtain ⟨st, ex, sr, hres⟩ := factCheckStage_some _ _ _ _ hfc
    subst h1
    subst hres
    exact ⟨rfl, fun _ _ => rfl⟩
  | none =>
    simp only [verify_claim, verify_with_key, hfc] at h
    by_cases hweb : (web_verify env.newsKeyPresent env.newsResp).isEmpty = true
    · simp only [hweb, if_true] at h
      simp only [trustedModelStage] at h
      rcases modelStage_cases _ _ _ _ h with hfb | ⟨s, parsed, hg, hx, hpr⟩
      · subst hfb
        exact ⟨rfl, fun _ _ => rfl⟩
      · subst hpr
        constructor
        · rw [normalize_claim]; rfl
        · intro _ hk2
          rw [hg] at hk2
          simp only [claimKeyFree, hx] at hk2
          rw [Option.isNone_iff_eq_none] at hk2
          rw [normalize_claim, hk2]
          rfl
    · have hf : (web_verify env.newsKeyPresent env.newsResp).isEmpty = false := by
        cases hv : (web_verify env.newsKeyPresent env.newsResp).isEmpty
        · rfl
        · exact absurd hv hweb
      simp only [hf, Bool.false_eq_true, if_false] at h
      simp only [webModelStage] at h
      rcases modelStage_cases _ _ _ _ h with hfb | ⟨s, parsed, hg, hx, hpr⟩
      · subst hfb
        exact ⟨rfl, fun _ _ => rfl⟩
      · subst hpr
        constructor
        · rw [normalize_claim]; rfl
        · intro hk1 _
          rw [hg] at hk1
          simp only [claimKeyFree, hx] at hk1
          rw [Option.isNone_iff_eq_none] at hk1
          rw [normalize_claim, hk1]
          rfl

/-- Environment for the C8 witness: no credentials, so no model mapping
supplies a claim key and the terminal result echoes the input. -/
def c8WEnv : Env :=
  { fcKeyPresent := false
    fcHttp := none
    newsKeyPresent := false
    newsResp := none
    modelConfigured := false
    modelResp1 := GenResp.plain ""
    modelResp2 := GenResp.plain "" }

theorem C8_w :
    (alookup (terminal30 "echo me" "General") "claim").isSome = true ∧
    alookup (terminal30 "echo me" "General") "claim" =
      some (JVal.str "echo me") :=
  ⟨(C8_amended_claim_echo c8WEnv "echo me" (JVal.str "General")
      (terminal30 "echo me" "General") rfl).1,
   (C8_amended_claim_echo c8WEnv "echo me" (JVal.str "General")
      (terminal30 "echo me" "General") rfl).2 rfl rfl⟩

/-- Claim C6 counterexample: on the input `"[\x7b\"a\": 1\x7d]"` — a
top-level JSON array — the function does not return Absent: the greedy
brace search finds the inner object and returns it. -/
theorem C6_cx :
    extract_json_from_text "[\x7b\"a\": 1\x7d]" = some [("a", JVal.num 1)] :=
  rfl

/-- Claim C6 (amended): extraction succeeds on a pure JSON object, on an
object surrounded by (brace-free) prose, and on an object in code
fences — first by a whole-text parse (which alone succeeds on pure JSON
and fails on prose), then via the first-to-last-brace substring.  It
returns Absent on input with no opening brace, on a brace block that
never parses, and on a top-level JSON array without an embedded
single object — but a one-object array yields that inner object. -/
theorem C6_amended_extract_json :
    extract_json_from_text "\x7b\"a\": 1\x7d" = some [("a", JVal.num 1)] ∧
    extract_json_from_text
      "Sure! Here is the result: \x7b\"a\": 1\x7d (hope it helps)" =
      some [("a", JVal.num 1)] ∧
    extract_json_from_text "```json\n\x7b\"a\": 1\x7d\n```" =
      some [("a", JVal.num 1)] ∧
    jsonLoads "\x7b\"a\": 1\x7d" = some (JVal.obj [("a", JVal.num 1)]) ∧
    jsonLoads "Sure! Here is the result: \x7b\"a\": 1\x7d (hope it helps)" =
      none ∧
    (∀ s : String, ¬ openBrace ∈ s.data → extract_json_from_text s = none) ∧
    extract_json_from_text "no json here" = none ∧
    extract_json_from_text "\x7babc" = none ∧
    extract_json_from_text "[1, 2, 3]" = none ∧
    extract_json_from_text "[\x7b\"a\": 1\x7d]" = some [("a", JVal.num 1)] :=
  ⟨rfl, rfl, rfl, rfl, rfl, extract_json_no_brace, rfl, rfl, rfl, rfl⟩

theorem C6_w :
    ¬ openBrace ∈ ("plain text answer" : String).data ∧
    extract_json_from_text "plain text answer" = none :=
  ⟨by decide,
   C6_amended_extract_json.2.2.2.2.2.1 "plain text answer" (by decide)⟩

end App
